import Mathlib

/-!
Verification development for the kinematic calibration example of the
robot_cal_tools repository (rct_examples/src/examples/kinematic_calibration.cpp
together with rct_optimizations/include/rct_optimizations/types.h).

The C++ code is shallowly embedded: Eigen isometries become an explicit
3x3-matrix-plus-vector structure, yaml-cpp nodes become an inductive AST with
the library semantics used by the example (undefined-node lookups, size of an
undefined node, numeric conversion failures), and fallible code returns Except.
Scalar arithmetic that the example performs exactly (parsing, quaternion to
matrix conversion, equality operators) is embedded over the rationals so that
the theorems can be checked by evaluation; the forward-kinematics and
statistics pipeline, which uses trigonometric functions and square roots, is
embedded over the reals.

The DH chain (DHChain, getFK, the offset constructor) and the optimize routine
live in rct_optimizations headers that are not part of the provided sources;
those definitions are modelled from the specification text and carry a doc
comment saying so.
-/

namespace RCT

/-- Vector in three dimensions with entries in a commutative ring. -/
structure Vec3 (R : Type) where
  x : R
  y : R
  z : R
  deriving DecidableEq, Repr

/-- Matrix with three rows and three columns, stored entrywise. -/
structure Mat3 (R : Type) where
  m00 : R
  m01 : R
  m02 : R
  m10 : R
  m11 : R
  m12 : R
  m20 : R
  m21 : R
  m22 : R
  deriving DecidableEq, Repr

variable {R : Type} [CommRing R]

/-- Zero vector. -/
def Vec3.zero : Vec3 R := ⟨0, 0, 0⟩

/-- Componentwise vector addition. -/
def Vec3.add (a b : Vec3 R) : Vec3 R := ⟨a.x + b.x, a.y + b.y, a.z + b.z⟩

/-- Componentwise vector negation. -/
def Vec3.neg (a : Vec3 R) : Vec3 R := ⟨-a.x, -a.y, -a.z⟩

/-- Identity matrix. -/
def Mat3.one : Mat3 R := ⟨1, 0, 0, 0, 1, 0, 0, 0, 1⟩

/-- Matrix product. -/
def Mat3.mul (a b : Mat3 R) : Mat3 R :=
  ⟨a.m00 * b.m00 + a.m01 * b.m10 + a.m02 * b.m20,
   a.m00 * b.m01 + a.m01 * b.m11 + a.m02 * b.m21,
   a.m00 * b.m02 + a.m01 * b.m12 + a.m02 * b.m22,
   a.m10 * b.m00 + a.m11 * b.m10 + a.m12 * b.m20,
   a.m10 * b.m01 + a.m11 * b.m11 + a.m12 * b.m21,
   a.m10 * b.m02 + a.m11 * b.m12 + a.m12 * b.m22,
   a.m20 * b.m00 + a.m21 * b.m10 + a.m22 * b.m20,
   a.m20 * b.m01 + a.m21 * b.m11 + a.m22 * b.m21,
   a.m20 * b.m02 + a.m21 * b.m12 + a.m22 * b.m22⟩

/-- Matrix transpose. -/
def Mat3.transpose (a : Mat3 R) : Mat3 R :=
  ⟨a.m00, a.m10, a.m20, a.m01, a.m11, a.m21, a.m02, a.m12, a.m22⟩

/-- Matrix-vector product. -/
def Mat3.mulVec (a : Mat3 R) (v : Vec3 R) : Vec3 R :=
  ⟨a.m00 * v.x + a.m01 * v.y + a.m02 * v.z,
   a.m10 * v.x + a.m11 * v.y + a.m12 * v.z,
   a.m20 * v.x + a.m21 * v.y + a.m22 * v.z⟩

/-- Trace of a matrix. -/
def Mat3.trace (a : Mat3 R) : R := a.m00 + a.m11 + a.m22

/-- Rigid-transform representation mirroring Eigen Isometry3d: a linear part
and a translation part.  The transform sends a point p to linear * p +
translation. -/
structure Iso3 (R : Type) where
  linear : Mat3 R
  translation : Vec3 R
  deriving DecidableEq, Repr

/-- Identity isometry, mirroring Eigen Isometry3d Identity. -/
def Iso3.identity : Iso3 R := ⟨Mat3.one, Vec3.zero⟩

/-- Composition of transforms, mirroring the Eigen product a * b. -/
def Iso3.comp (a b : Iso3 R) : Iso3 R :=
  ⟨a.linear.mul b.linear, (a.linear.mulVec b.translation).add a.translation⟩

/-- Inverse of an isometry as computed by Eigen in Isometry mode: the linear
part is transposed (valid when it is a rotation) and the translation is the
negated rotated translation. -/
def Iso3.inverse (a : Iso3 R) : Iso3 R :=
  ⟨a.linear.transpose, (a.linear.transpose.mulVec a.translation).neg⟩

/-- Eigen member operation translate: post-multiplies by a pure translation. -/
def Iso3.translate (t : Iso3 R) (v : Vec3 R) : Iso3 R := t.comp ⟨Mat3.one, v⟩

/-- Eigen member operation rotate: post-multiplies by a pure linear transform. -/
def Iso3.rotate (t : Iso3 R) (m : Mat3 R) : Iso3 R := t.comp ⟨m, Vec3.zero⟩

/-- Pure translation isometry. -/
def Iso3.ofTranslation (v : Vec3 R) : Iso3 R := ⟨Mat3.one, v⟩

/-- Pure rotation isometry. -/
def Iso3.ofLinear (m : Mat3 R) : Iso3 R := ⟨m, Vec3.zero⟩

/-- Conversion of a quaternion (w, x, y, z) to a matrix exactly as Eigen
Quaternion toRotationMatrix computes it from the raw coefficients; no
normalization is performed, so a non-unit quaternion yields a matrix that is
not a rotation. -/
def quatToMat (w x y z : R) : Mat3 R :=
  ⟨1 - (2 * y * y + 2 * z * z), 2 * y * x - 2 * z * w, 2 * z * x + 2 * y * w,
   2 * y * x + 2 * z * w, 1 - (2 * x * x + 2 * z * z), 2 * z * y - 2 * x * w,
   2 * z * x - 2 * y * w, 2 * z * y + 2 * x * w, 1 - (2 * x * x + 2 * y * y)⟩

end RCT

namespace RCT

/-! ## YAML measurement files and loadMeasurements

A yaml-cpp document is modelled by an inductive AST.  Scalars carry their
numeric interpretation when they have one; a scalar without a numeric
interpretation models a non-numeric YAML scalar.  The example accesses nodes
through map lookup (which yields an undefined node when the key is absent),
sequence indexing, the size operation (zero for scalars and undefined nodes)
and numeric conversion (which throws for undefined nodes, non-numeric scalars
and composite nodes); those are the semantics embedded here. -/

/-- YAML node AST. -/
inductive YNode where
  | num (q : ℚ)
  | str (s : String)
  | seq (items : List YNode)
  | ymap (entries : List (String × YNode))
  | missing

/-- Size of a node as yaml-cpp reports it: element count for sequences, entry
count for maps, zero otherwise (in particular zero for an undefined node that
came from a failed map lookup). -/
def YNode.size : YNode → Nat
  | .seq items => items.length
  | .ymap entries => entries.length
  | _ => 0

/-- Map lookup; a missing key or a lookup on a non-map node yields the
undefined node, as yaml-cpp const map access does. -/
def YNode.find : YNode → String → YNode
  | .ymap entries, key =>
    match entries.find? (fun e => e.1 == key) with
    | some e => e.2
    | none => .missing
  | _, _ => .missing

/-- Sequence indexing; out-of-range access and indexing of a non-sequence node
yield the undefined node. -/
def YNode.get : YNode → Nat → YNode
  | .seq items, i => items.getD i .missing
  | _, _ => .missing

/-- Structured parse failure raised by the yaml-cpp layer; the location string
identifies the node being read when the failure occurred (modelling the
line/column mark and invalid-key information the library attaches). -/
structure YamlError where
  loc : String
  msg : String
  deriving DecidableEq, Repr

/-- Numeric conversion, modelling the yaml-cpp as-double call: it succeeds
exactly on numeric scalars and otherwise throws an exception that names the
offending location. -/
def asDouble (loc : String) : YNode → Except YamlError ℚ
  | .num q => .ok q
  | .str _ => .error ⟨loc, "bad conversion"⟩
  | .seq _ => .error ⟨loc, "bad conversion"⟩
  | .ymap _ => .error ⟨loc, "bad conversion"⟩
  | .missing => .error ⟨loc, "invalid node"⟩

/-- Exception type thrown by loadMeasurements, mirroring
rct_ros_tools BadFileException. -/
structure BadFileException where
  what : String
  deriving DecidableEq, Repr

/-- Measurement record mirroring rct_optimizations KinematicMeasurement
(types.h): a measured camera-to-target pose plus the joint values of the two
chains. -/
structure KinematicMeasurement (R : Type) where
  camera_to_target : Iso3 R
  camera_chain_joints : List R
  target_chain_joints : List R
  deriving DecidableEq, Repr

/-- Read one joints sequence the way the source loop does: the vector is
resized to the size of the node and each entry is converted with as-double.
A missing key gives an undefined node of size zero, hence an empty vector and
no error. -/
def parseJoints (loc : String) (n : YNode) : Except YamlError (List ℚ) :=
  (List.range n.size).mapM (fun i => asDouble (loc ++ "[" ++ toString i ++ "]") (n.get i))

/-- Parse one measurement record, mirroring the body of the loadMeasurements
loop: target joints, then camera joints, then the pose built by starting from
the identity, translating by (x, y, z) and rotating by the raw quaternion
(qw, qx, qy, qz). -/
def parseMeasurement (node : YNode) : Except YamlError (KinematicMeasurement ℚ) := do
  let target_chain_joints ← parseJoints "target_joints" (node.find "target_joints")
  let camera_chain_joints ← parseJoints "camera_joints" (node.find "camera_joints")
  let pose := node.find "pose"
  let x ← asDouble "pose/x" (pose.find "x")
  let y ← asDouble "pose/y" (pose.find "y")
  let z ← asDouble "pose/z" (pose.find "z")
  let qw ← asDouble "pose/qw" (pose.find "qw")
  let qx ← asDouble "pose/qx" (pose.find "qx")
  let qy ← asDouble "pose/qy" (pose.find "qy")
  let qz ← asDouble "pose/qz" (pose.find "qz")
  let camera_to_target :=
    (Iso3.identity.translate ⟨x, y, z⟩).rotate (quatToMat qw qx qy qz)
  pure { camera_to_target, camera_chain_joints, target_chain_joints }

/-- Embedding of loadMeasurements: the file is the ordered list of top-level
entries; each record is parsed in order and the first yaml-cpp failure is
rethrown as a BadFileException whose message is the string
"YAML failure: " followed by the library message. -/
def loadMeasurements (file : List (String × YNode)) :
    Except BadFileException (List (KinematicMeasurement ℚ)) :=
  ((file.mapM (fun entry => parseMeasurement entry.2)).mapError
    (fun e => ⟨"YAML failure: " ++ e.msg ++ " at " ++ e.loc⟩))

end RCT

namespace RCT

/-! ## DH chains and forward kinematics

DHChain, its offset-applying constructor and getFK live in the
rct_optimizations headers, which are not among the provided sources; they are
modelled here from the specification text (sections 3 and 4.1). -/

/-- Joint type of a chain segment (specification section 3, JointType). -/
inductive DHJointType where
  | revolute
  | prismatic
  deriving DecidableEq, Repr

/-- Four link parameters of one segment in the standard serial-chain
convention: offset length d, joint angle theta, link length r, twist angle
alpha. -/
structure Vec4 (R : Type) where
  d : R
  theta : R
  r : R
  alpha : R
  deriving DecidableEq, Repr

/-- Componentwise addition of parameter rows. -/
def Vec4.add {R : Type} [CommRing R] (a b : Vec4 R) : Vec4 R :=
  ⟨a.d + b.d, a.theta + b.theta, a.r + b.r, a.alpha + b.alpha⟩

/-- Modelled from the spec: one serial-chain segment (LinkParameters,
specification section 3) with its four nominal parameters, joint type,
human-readable identifier and inclusive joint-limit range.  The limits are
metadata only; nothing in the kinematics reads them. -/
structure DHTransform where
  params : Vec4 ℝ
  jtype : DHJointType
  jname : String
  jmin : ℝ := 0
  jmax : ℝ := 0

/-- Pure rotation about the z axis. -/
noncomputable def rotZ (t : ℝ) : Iso3 ℝ :=
  Iso3.ofLinear ⟨Real.cos t, -Real.sin t, 0, Real.sin t, Real.cos t, 0, 0, 0, 1⟩

/-- Pure rotation about the x axis. -/
noncomputable def rotX (t : ℝ) : Iso3 ℝ :=
  Iso3.ofLinear ⟨1, 0, 0, 0, Real.cos t, -Real.sin t, 0, Real.sin t, Real.cos t⟩

/-- Pure translation along the z axis. -/
def transZ (d : ℝ) : Iso3 ℝ := Iso3.ofTranslation ⟨0, 0, d⟩

/-- Pure translation along the x axis. -/
def transX (r : ℝ) : Iso3 ℝ := Iso3.ofTranslation ⟨r, 0, 0⟩

/-- Modelled from the spec: the rigid transform contributed by one segment at
a live joint value (specification section 4.1): the canonical four-parameter
transform TransZ d * RotZ theta * TransX r * RotX alpha, with the live
parameter substituted by the joint value — the angle for a revolute joint, the
length for a prismatic joint.  Joint limits are not consulted and the value is
not clamped. -/
noncomputable def DHTransform.createRelativeTransform (t : DHTransform) (q : ℝ) : Iso3 ℝ :=
  let d := match t.jtype with
    | .prismatic => q
    | .revolute => t.params.d
  let theta := match t.jtype with
    | .revolute => q
    | .prismatic => t.params.theta
  ((transZ d).comp (rotZ theta)).comp ((transX t.params.r).comp (rotX t.params.alpha))

/-- Modelled from the spec: an ordered serial linkage plus a fixed base offset
transform (specification section 3, KinematicChain). -/
structure DHChain where
  transforms : List DHTransform
  base_offset : Iso3 ℝ

/-- Degrees of freedom of the chain. -/
def DHChain.dof (c : DHChain) : Nat := c.transforms.length

/-- Modelled from the spec: forward kinematics (specification section 4.1)
composes, in segment order, the base offset with each segment's per-joint
transform at the corresponding entry of the joint vector.  A zero-DOF chain
yields the base offset.  Joint limits play no role.  (The source throws on a
joint-vector length mismatch; that case is outside every theorem below, and
surplus entries on either side are ignored here.) -/
noncomputable def DHChain.getFK (c : DHChain) (joints : List ℝ) : Iso3 ℝ :=
  (c.transforms.zip joints).foldl
    (fun acc p => acc.comp (p.1.createRelativeTransform p.2)) c.base_offset

/-- Modelled from the spec: the offset-applying chain constructor
(specification section 4.1, withOffsets): a new chain whose segment parameters
are the nominal values plus the corresponding offset row, with the base offset
and all other segment data unchanged. -/
noncomputable def DHChain.withOffsets (c : DHChain) (offsets : List (Vec4 ℝ)) : DHChain :=
  { transforms := (c.transforms.zip offsets).map
      (fun p => { p.1 with params := p.1.params.add p.2 }),
    base_offset := c.base_offset }

/-- First segment of the two-axis positioner of the example: parameters
(0, 0, 0, -pi/2), revolute, named j1, limits [-pi, pi]. -/
noncomputable def positionerJ1 : DHTransform :=
  { params := ⟨0, 0, 0, -(Real.pi / 2)⟩, jtype := .revolute, jname := "j1",
    jmin := -Real.pi, jmax := Real.pi }

/-- Second segment of the two-axis positioner of the example: parameters
(-0.475, -pi/2, 0, 0), revolute, named j2, limits [-2 pi, 2 pi]. -/
noncomputable def positionerJ2 : DHTransform :=
  { params := ⟨-0.475, -(Real.pi / 2), 0, 0⟩, jtype := .revolute, jname := "j2",
    jmin := -(2 * Real.pi), jmax := 2 * Real.pi }

/-- Embedding of createTwoAxisPositioner from the example: two revolute
segments with the stated parameters and limits, and a base offset built by
translating by (2.2, 0, 1.6) and rotating by pi/2 about the x axis. -/
noncomputable def createTwoAxisPositioner : DHChain :=
  { transforms := [positionerJ1, positionerJ2],
    base_offset := (Iso3.identity.translate ⟨2.2, 0, 1.6⟩).rotate
      ⟨1, 0, 0, 0, Real.cos (Real.pi / 2), -Real.sin (Real.pi / 2),
       0, Real.sin (Real.pi / 2), Real.cos (Real.pi / 2)⟩ }

/-- Modelled from the spec: the calibration result (specification section 3,
CalibrationResult): convergence flag, initial and final per-observation cost,
the three calibrated transforms and the two chains' calibrated offset
matrices.  The covariance object is not needed by any claim and is omitted. -/
structure KinematicCalibrationResult where
  converged : Bool
  initial_cost_per_obs : ℝ
  final_cost_per_obs : ℝ
  camera_mount_to_camera : Iso3 ℝ
  target_mount_to_target : Iso3 ℝ
  camera_base_to_target_base : Iso3 ℝ
  camera_chain_dh_offsets : List (Vec4 ℝ)
  target_chain_dh_offsets : List (Vec4 ℝ)

/-- Validation statistics structure from the example. -/
structure Stats where
  pos_mean : ℝ
  pos_stdev : ℝ
  rot_mean : ℝ
  rot_stdev : ℝ

/-- Embedding of the percent-difference comparator of Stats: each component is
one hundred times the difference between the receiver's statistic and the
other's, divided by the receiver's own statistic, in the order position mean,
position standard deviation, orientation mean, orientation standard
deviation.  No guard is placed on the divisor; real division in Lean is total
(division by zero yields zero) just as the double division in the source is
performed unconditionally (yielding a non-finite value when the receiver's
statistic is zero). -/
noncomputable def Stats.percentDiff (s other : Stats) : ℝ × ℝ × ℝ × ℝ :=
  (100 * (s.pos_mean - other.pos_mean) / s.pos_mean,
   100 * (s.pos_stdev - other.pos_stdev) / s.pos_stdev,
   100 * (s.rot_mean - other.rot_mean) / s.rot_mean,
   100 * (s.rot_stdev - other.rot_stdev) / s.rot_stdev)

/-- Running accumulator modelling the boost accumulator set with mean and
(lazy) variance statistics: count, running sum and running sum of squares. -/
structure Acc where
  n : Nat
  sum : ℝ
  sumSq : ℝ

/-- Empty accumulator. -/
def Acc.empty : Acc := ⟨0, 0, 0⟩

/-- Push one sample. -/
noncomputable def Acc.push (a : Acc) (v : ℝ) : Acc := ⟨a.n + 1, a.sum + v, a.sumSq + v ^ 2⟩

/-- Mean as boost extracts it: sum over count. -/
noncomputable def Acc.mean (a : Acc) : ℝ := a.sum / a.n

/-- Lazy variance as boost extracts it: second moment minus squared mean. -/
noncomputable def Acc.variance (a : Acc) : ℝ := a.sumSq / a.n - (a.sum / a.n) ^ 2

/-- Euclidean norm of a translation vector. -/
noncomputable def norm3 (v : Vec3 ℝ) : ℝ := Real.sqrt (v.x ^ 2 + v.y ^ 2 + v.z ^ 2)

/-- Angular distance between two orientations given as linear parts, modelling
the Eigen angularDistance of the quaternions extracted from the two matrices:
the angle of the relative rotation, recovered from the trace of the relative
rotation matrix. -/
noncomputable def angularDistance (a b : Mat3 ℝ) : ℝ :=
  Real.arccos (((a.transpose.mul b).trace - 1) / 2)

/-- Body of the validation loop of compareToMeasurements, one measurement at a
time: forward kinematics of both calibrated chains at the measurement's joint
values, composition with the calibrated transforms exactly as in the source,
and a push of the translation-error norm and of the angular distance onto the
two accumulators. -/
noncomputable def measurementStep (camera_chain target_chain : DHChain)
    (result : KinematicCalibrationResult) (acc : Acc × Acc)
    (m : KinematicMeasurement ℝ) : Acc × Acc :=
  let camera_chain_fk := camera_chain.getFK m.camera_chain_joints
  let camera_base_to_camera := camera_chain_fk.comp result.camera_mount_to_camera
  let target_chain_fk := target_chain.getFK m.target_chain_joints
  let camera_base_to_target :=
    (result.camera_base_to_target_base.comp target_chain_fk).comp result.target_mount_to_target
  let camera_to_target := camera_base_to_camera.inverse.comp camera_base_to_target
  let diff := camera_to_target.inverse.comp m.camera_to_target
  (acc.1.push (norm3 diff.translation),
   acc.2.push (angularDistance camera_to_target.linear m.camera_to_target.linear))

/-- Embedding of compareToMeasurements: rebuild the calibrated chains from the
result's offset matrices, run the loop over the measurement set and extract
mean and standard deviation (square root of the variance) of both
accumulators.  No optimization is involved: the function is a pure fold over
the measurements. -/
noncomputable def compareToMeasurements (initial_camera_chain initial_target_chain : DHChain)
    (result : KinematicCalibrationResult)
    (measurements : List (KinematicMeasurement ℝ)) : Stats :=
  let camera_chain := initial_camera_chain.withOffsets result.camera_chain_dh_offsets
  let target_chain := initial_target_chain.withOffsets result.target_chain_dh_offsets
  let accs := measurements.foldl (measurementStep camera_chain target_chain result)
    (Acc.empty, Acc.empty)
  { pos_mean := accs.1.mean, pos_stdev := Real.sqrt accs.1.variance,
    rot_mean := accs.2.mean, rot_stdev := Real.sqrt accs.2.variance }

end RCT

namespace RCT

/-! ## Masked optimization model

The optimize routine itself lives in rct_optimizations sources that are not
provided; its parameter bookkeeping is modelled from the specification text
(sections 4.2 and 4.3): the free-parameter vector is built by projecting every
unknown group through its mask (a hard exclusion of the frozen components),
an arbitrary inner solver acts on the free vector only, and the result is the
embedding of the solver output back into the full parameter state, with the
frozen components taken verbatim from the initial state.  The inner
Levenberg-Marquardt iteration is an external library (Ceres) and is therefore
quantified over: the theorems hold for every solver behavior, which is exactly
what the claims assert. -/

/-- Modelled from the spec: one unknown group (a chain's DH-offset matrix
flattened row by row, or the six translation/rotation components of one
top-level transform) together with its mask; true marks a frozen component. -/
structure ParamGroup where
  values : List ℚ
  mask : List Bool
  deriving DecidableEq, Repr

/-- Dimension consistency of a group: the mask covers exactly its components. -/
def ParamGroup.wellFormed (g : ParamGroup) : Bool := g.mask.length == g.values.length

/-- Projection of one group onto its free components: frozen components are
excluded from the vector entirely. -/
def freeOf : List ℚ → List Bool → List ℚ
  | _, [] => []
  | [], _ => []
  | v :: vs, b :: bs => if b then freeOf vs bs else v :: freeOf vs bs

/-- Number of free components of one group. -/
def ParamGroup.freeCount (g : ParamGroup) : Nat := (freeOf g.values g.mask).length

/-- Free-parameter vector of the whole problem: concatenation of the per-group
projections. -/
def freeVector (groups : List ParamGroup) : List ℚ :=
  (groups.map (fun g => freeOf g.values g.mask)).flatten

/-- Embedding of a free vector back into one group: frozen components keep
their initial values, free components are taken in order from the solver
output (padding with the initial value if the solver returned too few). -/
def reassemble : List ℚ → List Bool → List ℚ → List ℚ
  | [], _, _ => []
  | v :: vs, [], _ => v :: vs
  | v :: vs, b :: bs, free =>
    if b then v :: reassemble vs bs free
    else free.headD v :: reassemble vs bs free.tail

/-- Embedding of a free vector back into all groups, splitting the solver
output by each group's free count. -/
def distribute : List ParamGroup → List ℚ → List (List ℚ)
  | [], _ => []
  | g :: gs, free =>
    reassemble g.values g.mask (free.take g.freeCount) :: distribute gs (free.drop g.freeCount)

/-- Modelled from the spec: the result record of the optimize routine as far
as the masking and error-handling claims need it: convergence flag, initial
and final per-observation cost, and the final full parameter state. -/
structure OptimizeOutcome where
  converged : Bool
  initial_cost_per_obs : ℚ
  final_cost_per_obs : ℚ
  finalParams : List (List ℚ)
  deriving DecidableEq, Repr

/-- Sum of squared residuals. -/
def sumSq (l : List ℚ) : ℚ := (l.map (fun v => v ^ 2)).sum

/-- Modelled from the spec: the optimize routine (specification section 4.3).
Dimension consistency is checked before any numerical work; on success the
routine always returns a result — the solver's convergence verdict is recorded
in the converged flag, never raised as an error — and the initial and final
per-observation costs (sum of squared residuals divided by the observation
count) are populated unconditionally.  The residual function and the inner
solver are parameters: the residual map realizes the measurement and prior
residual blocks, and the solver realizes the Levenberg-Marquardt iteration of
the external library, which acts on the free vector only. -/
def optimizeModel (groups : List ParamGroup) (residual : List (List ℚ) → List ℚ)
    (nObs : Nat) (solver : List ℚ → List ℚ × Bool) : Except String OptimizeOutcome :=
  if groups.all ParamGroup.wellFormed then
    let initial_cost := sumSq (residual (groups.map ParamGroup.values)) / nObs
    let solved := solver (freeVector groups)
    let finalParams := distribute groups solved.1
    let final_cost := sumSq (residual finalParams) / nObs
    .ok ⟨solved.2, initial_cost, final_cost, finalParams⟩
  else
    .error "mask/parameter dimension mismatch"

end RCT

namespace RCT

/-! ## KinematicObservation and its equality operator (types.h) -/

/-- Default comparison precision of Eigen isApprox for double entries. -/
def dummyPrecision : ℚ := 1 / 10 ^ 12

/-- Sum of squared entries of a vector stored as a list. -/
def sumSqL (l : List ℚ) : ℚ := (l.map (fun v => v ^ 2)).sum

/-- Eigen isApprox on dynamically sized vectors: the squared norm of the
difference is at most the squared precision times the smaller of the two
squared norms. -/
def isApprox (a b : List ℚ) : Bool :=
  decide (sumSqL (List.zipWith (fun u v => u - v) a b) ≤
    dummyPrecision ^ 2 * min (sumSqL a) (sumSqL b))

/-- Embedding of the Correspondence template of types.h: a feature location in
the sensor frame paired with one in the target frame. -/
structure Correspondence where
  in_image : List ℚ
  in_target : List ℚ
  deriving DecidableEq, Repr

/-- Equality operator of Correspondence: both members compared with
isApprox. -/
def Correspondence.beq (a rhs : Correspondence) : Bool :=
  isApprox a.in_image rhs.in_image && isApprox a.in_target rhs.in_target

/-- Equality of correspondence vectors as std::vector compares them: equal
sizes and elementwise operator equality. -/
def correspondenceSetBeq (a b : List Correspondence) : Bool :=
  a.length == b.length && (List.zipWith Correspondence.beq a b).all id

/-- Embedding of the KinematicObservation template of types.h: a
correspondence set plus the joint values of the two chains. -/
structure KinematicObservation where
  correspondence_set : List Correspondence
  camera_chain_joints : List ℚ
  target_chain_joints : List ℚ
  deriving DecidableEq, Repr

/-- Equality operator of KinematicObservation exactly as written in types.h
lines 152 to 156: the two joint vectors are compared with isApprox against the
right-hand side, but the correspondence set is compared against itself
(correspondence_set == correspondence_set), not against the right-hand
side's. -/
def KinematicObservation.beq (a rhs : KinematicObservation) : Bool :=
  isApprox a.camera_chain_joints rhs.camera_chain_joints &&
  isApprox a.target_chain_joints rhs.target_chain_joints &&
  correspondenceSetBeq a.correspondence_set a.correspondence_set

end RCT

namespace RCT

/-! ## Specification-form definitions used in theorem statements -/

/-- Predicted camera-to-target transform written exactly as the specification
formula: (FK of the calibrated camera chain at the camera joints, composed
with camera-mount-to-camera) inverse, composed with (camera-base-to-target-base
times FK of the calibrated target chain at the target joints times
target-mount-to-target). -/
noncomputable def predictedCameraToTarget (camera_chain target_chain : DHChain)
    (result : KinematicCalibrationResult) (m : KinematicMeasurement ℝ) : Iso3 ℝ :=
  ((camera_chain.getFK m.camera_chain_joints).comp result.camera_mount_to_camera).inverse.comp
    (result.camera_base_to_target_base.comp
      ((target_chain.getFK m.target_chain_joints).comp result.target_mount_to_target))

/-- Translation error of one measurement: norm of the translation of the
relative transform between prediction and measurement. -/
noncomputable def translationError (camera_chain target_chain : DHChain)
    (result : KinematicCalibrationResult) (m : KinematicMeasurement ℝ) : ℝ :=
  norm3 (((predictedCameraToTarget camera_chain target_chain result m).inverse.comp
    m.camera_to_target).translation)

/-- Rotation error of one measurement: angular distance between the predicted
and the measured orientation. -/
noncomputable def rotationError (camera_chain target_chain : DHChain)
    (result : KinematicCalibrationResult) (m : KinematicMeasurement ℝ) : ℝ :=
  angularDistance (predictedCameraToTarget camera_chain target_chain result m).linear
    m.camera_to_target.linear

/-- Mean of a list of samples. -/
noncomputable def listMean (l : List ℝ) : ℝ := l.sum / l.length

/-- Population variance of a list of samples in second-moment form, matching
the boost lazy variance. -/
noncomputable def listVariance (l : List ℝ) : ℝ :=
  (l.map (fun v => v ^ 2)).sum / l.length - (l.sum / l.length) ^ 2

/-- Geometric content of one chain segment: the data forward kinematics reads
(parameters and joint type), excluding the joint limits and the name. -/
def DHTransform.geometry (t : DHTransform) : Vec4 ℝ × DHJointType := (t.params, t.jtype)

/-- Two chains that agree on everything forward kinematics reads and may
differ arbitrarily in their joint-limit metadata (and segment names). -/
def sameGeometry (a b : DHChain) : Prop :=
  a.base_offset = b.base_offset ∧
    a.transforms.map DHTransform.geometry = b.transforms.map DHTransform.geometry

/-- Joint vector containing at least one value strictly outside the declared
inclusive limit range of its segment. -/
def jointOutsideLimits (c : DHChain) (q : List ℝ) : Prop :=
  ∃ p ∈ c.transforms.zip q, p.2 < p.1.jmin ∨ p.1.jmax < p.2

end RCT

namespace RCT

/-! ## Well-formed and malformed measurement records -/

/-- Fully well-formed measurement record, as plain data: two numeric joint
sequences and the seven numeric pose components. -/
structure RawRecord where
  target_joints : List ℚ
  camera_joints : List ℚ
  px : ℚ
  py : ℚ
  pz : ℚ
  qw : ℚ
  qx : ℚ
  qy : ℚ
  qz : ℚ

/-- YAML node of a well-formed record. -/
def RawRecord.toNode (r : RawRecord) : YNode :=
  .ymap [("target_joints", .seq (r.target_joints.map .num)),
         ("camera_joints", .seq (r.camera_joints.map .num)),
         ("pose", .ymap [("x", .num r.px), ("y", .num r.py), ("z", .num r.pz),
                         ("qw", .num r.qw), ("qx", .num r.qx), ("qy", .num r.qy),
                         ("qz", .num r.qz)])]

/-- Measurement a well-formed record denotes: the two joint sequences verbatim
and the pose built by translating by (x, y, z) and then rotating by the
quaternion (qw, qx, qy, qz). -/
def RawRecord.expectedMeasurement (r : RawRecord) : KinematicMeasurement ℚ :=
  { camera_to_target :=
      (Iso3.identity.translate ⟨r.px, r.py, r.pz⟩).rotate (quatToMat r.qw r.qx r.qy r.qz),
    camera_chain_joints := r.camera_joints,
    target_chain_joints := r.target_joints }

/-- Keys of the pose map read by the example. -/
def poseKeys : List String := ["x", "y", "z", "qw", "qx", "qy", "qz"]

/-- Numeric-scalar test. -/
def numericNode : YNode → Bool
  | .num _ => true
  | _ => false

/-- Record whose pose block cannot be read: the pose entry is absent, or one
of its seven components is absent or non-numeric. -/
def poseMalformed (record : YNode) : Bool :=
  poseKeys.any (fun k => !(numericNode ((record.find "pose").find k)))

/-- Record with a non-numeric entry inside one of its joints sequences. -/
def jointsMalformed (record : YNode) : Bool :=
  (List.range (record.find "target_joints").size).any
    (fun i => !(numericNode ((record.find "target_joints").get i))) ||
  (List.range (record.find "camera_joints").size).any
    (fun i => !(numericNode ((record.find "camera_joints").get i)))

/-- Malformed record in the sense the amended claim can support: a pose block
that cannot be read or a non-numeric joints entry. -/
def badRecord (record : YNode) : Bool := poseMalformed record || jointsMalformed record

/-- Measurement file whose single record carries a full pose and a camera
joints sequence but no target_joints entry at all. -/
def fileMissingTargetJoints : List (String × YNode) :=
  [("0", .ymap [("camera_joints", .seq [.num (1 / 2)]),
                ("pose", .ymap [("x", .num 1), ("y", .num 2), ("z", .num 3),
                                ("qw", .num 1), ("qx", .num 0), ("qy", .num 0),
                                ("qz", .num 0)])])]

/-- Measurement file whose single record carries the raw non-unit quaternion
(0, 0, 0, 2). -/
def fileNonUnitQuaternion : List (String × YNode) :=
  [("0", .ymap [("target_joints", .seq []),
                ("camera_joints", .seq []),
                ("pose", .ymap [("x", .num 0), ("y", .num 0), ("z", .num 0),
                                ("qw", .num 0), ("qx", .num 0), ("qy", .num 0),
                                ("qz", .num 2)])])]

end RCT

namespace RCT

/-! ## Fixtures for witnesses -/

/-- Zero-DOF chain whose base offset is the identity. -/
def trivialChain : DHChain := { transforms := [], base_offset := Iso3.identity }

/-- Calibration result whose transforms are all the identity and whose offset
matrices are empty. -/
def perfectResult : KinematicCalibrationResult :=
  { converged := true, initial_cost_per_obs := 0, final_cost_per_obs := 0,
    camera_mount_to_camera := Iso3.identity, target_mount_to_target := Iso3.identity,
    camera_base_to_target_base := Iso3.identity,
    camera_chain_dh_offsets := [], target_chain_dh_offsets := [] }

/-- Measurement that the perfect result predicts exactly: identity pose, empty
joint vectors. -/
def perfectMeasurement : KinematicMeasurement ℝ :=
  { camera_to_target := Iso3.identity, camera_chain_joints := [], target_chain_joints := [] }

/-- Copy of the two-axis positioner whose joint-limit metadata is zeroed out;
it has the same geometry as createTwoAxisPositioner. -/
noncomputable def twoAxisPositionerNoLimits : DHChain :=
  { transforms := createTwoAxisPositioner.transforms.map
      (fun t => { t with jmin := 0, jmax := 0 }),
    base_offset := createTwoAxisPositioner.base_offset }

/-- Kinematic observation carrying one correspondence. -/
def obsWithCorrespondence : KinematicObservation :=
  { correspondence_set := [{ in_image := [1, 2], in_target := [3, 4, 5] }],
    camera_chain_joints := [1 / 2], target_chain_joints := [1 / 3] }

/-- Kinematic observation with the same joints and no correspondences. -/
def obsWithoutCorrespondence : KinematicObservation :=
  { correspondence_set := [], camera_chain_joints := [1 / 2], target_chain_joints := [1 / 3] }

end RCT

namespace RCT

/-! ## Supporting lemmas -/

theorem Mat3.mul_assoc {R : Type} [CommRing R] (a b c : Mat3 R) :
    (a.mul b).mul c = a.mul (b.mul c) := by
  cases a; cases b; cases c
  simp only [Mat3.mul, mk.injEq]
  refine ⟨?_, ?_, ?_, ?_, ?_, ?_, ?_, ?_, ?_⟩ <;> ring

theorem Mat3.mulVec_add {R : Type} [CommRing R] (a : Mat3 R) (u v : Vec3 R) :
    a.mulVec (u.add v) = (a.mulVec u).add (a.mulVec v) := by
  cases a; cases u; cases v
  simp only [Mat3.mulVec, Vec3.add, Vec3.mk.injEq]
  refine ⟨?_, ?_, ?_⟩ <;> ring

theorem Mat3.mul_mulVec {R : Type} [CommRing R] (a b : Mat3 R) (v : Vec3 R) :
    (a.mul b).mulVec v = a.mulVec (b.mulVec v) := by
  cases a; cases b; cases v
  simp only [Mat3.mul, Mat3.mulVec, Vec3.mk.injEq]
  refine ⟨?_, ?_, ?_⟩ <;> ring

theorem Vec3.add_assoc {R : Type} [CommRing R] (a b c : Vec3 R) :
    (a.add b).add c = a.add (b.add c) := by
  cases a; cases b; cases c
  simp only [Vec3.add, Vec3.mk.injEq]
  refine ⟨?_, ?_, ?_⟩ <;> ring

theorem Iso3.comp_assoc {R : Type} [CommRing R] (a b c : Iso3 R) :
    (a.comp b).comp c = a.comp (b.comp c) := by
  cases a; cases b; cases c
  simp only [Iso3.comp, Iso3.mk.injEq, Mat3.mul_assoc, Mat3.mulVec_add,
    Mat3.mul_mulVec, true_and]
  exact (Vec3.add_assoc _ _ _).symm

end RCT

namespace RCT

/-! ## Claim C6: the percent-difference comparator -/

/-- C6: for every pair of Stats instances a and b, the percent-difference
comparator reports, for each of the four statistics (position mean, position
standard deviation, orientation mean, orientation standard deviation), the
value 100 times (the receiver's statistic minus the argument's statistic)
divided by the receiver's own statistic. -/
theorem percentDiff_is_relative_to_receiver (a b : Stats) :
    a.percentDiff b =
      (100 * (a.pos_mean - b.pos_mean) / a.pos_mean,
       100 * (a.pos_stdev - b.pos_stdev) / a.pos_stdev,
       100 * (a.rot_mean - b.rot_mean) / a.rot_mean,
       100 * (a.rot_stdev - b.rot_stdev) / a.rot_stdev) := rfl

/-! ## Claims C3 and C4: the masked optimization model -/

theorem reassemble_frozen :
    ∀ (vs : List ℚ) (bs : List Bool) (free : List ℚ) (i : Nat),
      bs[i]? = some true → (reassemble vs bs free)[i]? = vs[i]? := by
  intro vs
  induction vs with
  | nil => intro bs free i h; cases bs <;> rfl
  | cons v vs ih =>
    intro bs free i h
    cases bs with
    | nil => simp at h
    | cons b bs =>
      cases i with
      | zero =>
        simp only [List.getElem?_cons_zero, Option.some.injEq] at h
        subst h
        simp [reassemble]
      | succ i =>
        simp only [List.getElem?_cons_succ] at h
        unfold reassemble
        by_cases hb : b = true
        · simp [hb, ih bs free i h]
        · simp only [Bool.not_eq_true] at hb
          simp [hb, ih bs free.tail i h]

theorem distribute_getElem :
    ∀ (groups : List ParamGroup) (free : List ℚ) (gi : Nat) (g : ParamGroup),
      groups[gi]? = some g →
      ∃ fr, (distribute groups free)[gi]? = some (reassemble g.values g.mask fr) := by
  intro groups
  induction groups with
  | nil => intro free gi g h; simp at h
  | cons g0 gs ih =>
    intro free gi g h
    cases gi with
    | zero =>
      have h0 : g0 = g := by simpa using h
      subst h0
      exact ⟨free.take (ParamGroup.freeCount g0), by simp [distribute]⟩
    | succ gi =>
      simp only [List.getElem?_cons_succ] at h
      simpa [distribute] using ih (free.drop g0.freeCount) gi g h

/-- C3: for every calibration problem with consistent dimensions and every
behavior of the inner solver — convergence reported or not — every parameter
component marked frozen in a mask is unchanged between the initial state and
the returned final state, because frozen components are excluded from the
free-parameter vector entirely and re-read from the initial state when the
result is assembled.  The inner solver is universally quantified, so the
statement holds regardless of anything the numerical iteration does. -/
theorem optimize_masked_components_unchanged (groups : List ParamGroup)
    (residual : List (List ℚ) → List ℚ) (nObs : Nat)
    (solver : List ℚ → List ℚ × Bool)
    (h : groups.all ParamGroup.wellFormed = true) :
    ∃ out, optimizeModel groups residual nObs solver = .ok out ∧
      ∀ (gi : Nat) (g : ParamGroup), groups[gi]? = some g →
        ∃ l, out.finalParams[gi]? = some l ∧
          ∀ (i : Nat), g.mask[i]? = some true → l[i]? = g.values[i]? := by
  refine ⟨⟨(solver (freeVector groups)).2,
            sumSq (residual (groups.map ParamGroup.values)) / nObs,
            sumSq (residual (distribute groups (solver (freeVector groups)).1)) / nObs,
            distribute groups (solver (freeVector groups)).1⟩, ?_, ?_⟩
  · simp [optimizeModel, h]
  · intro gi g hg
    obtain ⟨fr, hfr⟩ := distribute_getElem groups (solver (freeVector groups)).1 gi g hg
    exact ⟨_, hfr, fun i hi => reassemble_frozen g.values g.mask fr i hi⟩

/-- Witness for C3 at a concrete problem: one chain-offset group with a frozen
first component and one transform group fully frozen; the solver is a
non-converging map that rewrites every free parameter. -/
theorem optimize_masked_components_unchanged_witness :
    ∃ out, optimizeModel
        [{ values := [5, 7], mask := [true, false] }, { values := [9], mask := [true] }]
        (fun _ => [1]) 1 (fun v => (v.map (fun x => x), false)) = .ok out ∧
      ∀ (gi : Nat) (g : ParamGroup),
        ([{ values := [5, 7], mask := [true, false] },
          { values := [9], mask := [true] }] : List ParamGroup)[gi]? = some g →
        ∃ l, out.finalParams[gi]? = some l ∧
          ∀ (i : Nat), g.mask[i]? = some true → l[i]? = g.values[i]? :=
  optimize_masked_components_unchanged _ _ _ _ (by decide)

/-- C4: for every calibration problem with consistent dimensions, the optimize
model never fails on numerical non-convergence: whatever verdict the inner
solver reports is recorded in the converged flag of an ordinarily returned
result, and the initial and final per-observation costs (sum of squared
residuals divided by the observation count) are always populated. -/
theorem optimize_returns_result_with_costs (groups : List ParamGroup)
    (residual : List (List ℚ) → List ℚ) (nObs : Nat)
    (solver : List ℚ → List ℚ × Bool)
    (h : groups.all ParamGroup.wellFormed = true) :
    optimizeModel groups residual nObs solver =
      .ok { converged := (solver (freeVector groups)).2,
            initial_cost_per_obs := sumSq (residual (groups.map ParamGroup.values)) / nObs,
            final_cost_per_obs :=
              sumSq (residual (distribute groups (solver (freeVector groups)).1)) / nObs,
            finalParams := distribute groups (solver (freeVector groups)).1 } := by
  simp [optimizeModel, h]

/-- Witness for C4 at a concrete problem whose solver does not converge: the
result is still returned ordinarily. -/
theorem optimize_returns_result_with_costs_witness :
    optimizeModel [{ values := [1], mask := [false] }] (fun _ => [2]) 2
        (fun v => (v, false)) =
      .ok { converged :=
              ((fun (v : List ℚ) => (v, false))
                (freeVector [{ values := [1], mask := [false] }])).2,
            initial_cost_per_obs :=
              sumSq ((fun (_ : List (List ℚ)) => [(2 : ℚ)])
                ([{ values := [1], mask := [false] }].map ParamGroup.values)) / 2,
            final_cost_per_obs :=
              sumSq ((fun (_ : List (List ℚ)) => [(2 : ℚ)])
                (distribute [{ values := [1], mask := [false] }]
                  ((fun (v : List ℚ) => (v, false))
                    (freeVector [{ values := [1], mask := [false] }])).1)) / 2,
            finalParams :=
              distribute [{ values := [1], mask := [false] }]
                ((fun (v : List ℚ) => (v, false))
                  (freeVector [{ values := [1], mask := [false] }])).1 } :=
  optimize_returns_result_with_costs _ _ _ _ (by decide)

end RCT

namespace RCT

/-! ## Claim C8: the KinematicObservation equality operator -/

theorem sumSqL_nonneg (l : List ℚ) : 0 ≤ sumSqL l := by
  induction l with
  | nil => simp [sumSqL]
  | cons a l ih =>
    have ha := sq_nonneg a
    simp only [sumSqL, List.map_cons, List.sum_cons] at *
    linarith

theorem sumSqL_zipWith_sub_self (l : List ℚ) :
    sumSqL (List.zipWith (fun u v => u - v) l l) = 0 := by
  induction l with
  | nil => rfl
  | cons a l ih =>
    simp only [List.zipWith_cons_cons, sumSqL, List.map_cons, List.sum_cons] at *
    rw [ih]
    ring

theorem isApprox_refl (l : List ℚ) : isApprox l l = true := by
  unfold isApprox
  rw [decide_eq_true_eq, sumSqL_zipWith_sub_self, min_self]
  exact mul_nonneg (by positivity) (sumSqL_nonneg l)

theorem correspondence_beq_refl (c : Correspondence) : c.beq c = true := by
  unfold Correspondence.beq
  rw [isApprox_refl, isApprox_refl]
  rfl

theorem correspondenceSetBeq_refl (s : List Correspondence) :
    correspondenceSetBeq s s = true := by
  unfold correspondenceSetBeq
  rw [Bool.and_eq_true]
  refine ⟨by simp, ?_⟩
  induction s with
  | nil => rfl
  | cons c cs ih =>
    simp only [List.zipWith_cons_cons, List.all_cons, Bool.and_eq_true, id]
    exact ⟨correspondence_beq_refl c, ih⟩

/-- C8: for every two KinematicObservation values whose camera-chain and
target-chain joint vectors are approximately equal, the equality operator
returns true regardless of their correspondence sets, because it compares the
receiver's correspondence set with itself rather than with the right-hand
side's; differing correspondence sets therefore never make the comparison
false. -/
theorem kinematicObservation_beq_ignores_correspondence_sets
    (a b : KinematicObservation)
    (hcam : isApprox a.camera_chain_joints b.camera_chain_joints = true)
    (htgt : isApprox a.target_chain_joints b.target_chain_joints = true) :
    a.beq b = true := by
  unfold KinematicObservation.beq
  rw [hcam, htgt, correspondenceSetBeq_refl]
  rfl

/-- Witness for C8: two observations with identical joints whose
correspondence sets differ (one correspondence against none) still compare
equal. -/
theorem kinematicObservation_beq_ignores_correspondence_sets_witness :
    obsWithCorrespondence.beq obsWithoutCorrespondence = true ∧
    obsWithCorrespondence.correspondence_set ≠ obsWithoutCorrespondence.correspondence_set :=
  ⟨kinematicObservation_beq_ignores_correspondence_sets obsWithCorrespondence
      obsWithoutCorrespondence (isApprox_refl [1 / 2]) (isApprox_refl [1 / 3]),
   by decide⟩

end RCT

namespace RCT

/-! ## Claims C2 and C10: parse failures of loadMeasurements -/

theorem except_bind_ok_iff {E A B : Type} (x : Except E A) (f : A → Except E B) (b : B) :
    x.bind f = .ok b ↔ ∃ a, x = .ok a ∧ f a = .ok b := by
  cases x <;> simp [Except.bind]

theorem except_pure_ok_iff {E A : Type} (a b : A) :
    (Except.pure a : Except E A) = .ok b ↔ a = b := by
  simp [Except.pure, pure]

theorem parseMeasurement_def (node : YNode) :
    parseMeasurement node =
      (parseJoints "target_joints" (node.find "target_joints")).bind
        (fun target_chain_joints =>
      (parseJoints "camera_joints" (node.find "camera_joints")).bind
        (fun camera_chain_joints =>
      (asDouble "pose/x" ((node.find "pose").find "x")).bind (fun x =>
      (asDouble "pose/y" ((node.find "pose").find "y")).bind (fun y =>
      (asDouble "pose/z" ((node.find "pose").find "z")).bind (fun z =>
      (asDouble "pose/qw" ((node.find "pose").find "qw")).bind (fun qw =>
      (asDouble "pose/qx" ((node.find "pose").find "qx")).bind (fun qx =>
      (asDouble "pose/qy" ((node.find "pose").find "qy")).bind (fun qy =>
      (asDouble "pose/qz" ((node.find "pose").find "qz")).bind (fun qz =>
      Except.pure
        { camera_to_target :=
            (Iso3.identity.translate ⟨x, y, z⟩).rotate (quatToMat qw qx qy qz),
          camera_chain_joints := camera_chain_joints,
          target_chain_joints := target_chain_joints }))))))))) := rfl

theorem exceptMapM_ok_mem {E A B : Type} (f : A → Except E B) :
    ∀ (xs : List A) (ys : List B), xs.mapM f = .ok ys → ∀ x ∈ xs, ∃ y, f x = .ok y := by
  intro xs
  induction xs with
  | nil => intro ys h x hx; simp at hx
  | cons a as ih =>
    intro ys h x hx
    rw [List.mapM_cons] at h
    cases ha : f a with
    | error e => rw [ha] at h; simp [Bind.bind, Except.bind] at h
    | ok b =>
      rw [ha] at h
      simp only [Bind.bind, Except.bind] at h
      cases has : as.mapM f with
      | error e => rw [has] at h; simp at h
      | ok bs =>
        rcases List.mem_cons.mp hx with rfl | hxs
        · exact ⟨b, ha⟩
        · exact ih bs has x hxs

theorem exceptMapM_error_of_mem {E A B : Type} (f : A → Except E B) :
    ∀ (xs : List A) (x : A), x ∈ xs → (∃ e, f x = .error e) →
      ∃ e, xs.mapM f = .error e := by
  intro xs
  induction xs with
  | nil => intro x hx; simp at hx
  | cons a as ih =>
    intro x hx hex
    rw [List.mapM_cons]
    cases ha : f a with
    | error e => exact ⟨e, by simp [Bind.bind, Except.bind]⟩
    | ok b =>
      rcases List.mem_cons.mp hx with rfl | hxs
      · obtain ⟨e, he⟩ := hex
        rw [ha] at he
        exact absurd he (by simp)
      · obtain ⟨e, he⟩ := ih x hxs hex
        have he2 : List.mapM.loop f as [] = .error e := he
        exact ⟨e, by simp [Bind.bind, Except.bind, he, he2]⟩

theorem exceptMapM_append_error {E A B : Type} (f : A → Except E B) :
    ∀ (pre : List A) (x : A) (post : List A) (e : E),
      (∀ p ∈ pre, ∃ y, f p = .ok y) → f x = .error e →
      (pre ++ x :: post).mapM f = .error e := by
  intro pre
  induction pre with
  | nil =>
    intro x post e _ hx
    rw [List.nil_append, List.mapM_cons, hx]
    simp [Bind.bind, Except.bind]
  | cons p ps ih =>
    intro x post e hpre hx
    obtain ⟨y, hy⟩ := hpre p (List.mem_cons_self p ps)
    have hrest := ih x post e (fun q hq => hpre q (List.mem_cons_of_mem p hq)) hx
    have hrest2 : List.mapM.loop f (ps ++ x :: post) [] = .error e := hrest
    rw [List.cons_append, List.mapM_cons, hy]
    simp [Bind.bind, Except.bind, hrest, hrest2]

theorem asDouble_ok_numeric (loc : String) (n : YNode) (q : ℚ)
    (h : asDouble loc n = .ok q) : numericNode n = true := by
  cases n <;> simp [asDouble, numericNode] at h ⊢

theorem parseJoints_ok_numeric (loc : String) (n : YNode) (l : List ℚ)
    (h : parseJoints loc n = .ok l) :
    ∀ i ∈ List.range n.size, numericNode (n.get i) = true := by
  intro i hi
  obtain ⟨q, hq⟩ := exceptMapM_ok_mem _ _ _ h i hi
  exact asDouble_ok_numeric _ _ _ hq

theorem parseMeasurement_ok_not_bad (node : YNode) (m : KinematicMeasurement ℚ)
    (h : parseMeasurement node = .ok m) : badRecord node = false := by
  rw [parseMeasurement_def] at h
  simp only [except_bind_ok_iff, except_pure_ok_iff] at h
  obtain ⟨tj, htj, cj, hcj, x, hx, y, hy, z, hz, qw, hqw, qx, hqx, qy, hqy, qz, hqz, _⟩ := h
  have hpose : ∀ k ∈ poseKeys, numericNode ((node.find "pose").find k) = true := by
    intro k hk
    simp only [poseKeys, List.mem_cons, List.mem_singleton] at hk
    rcases hk with rfl | rfl | rfl | rfl | rfl | rfl | rfl | hfalse
    · exact asDouble_ok_numeric _ _ _ hx
    · exact asDouble_ok_numeric _ _ _ hy
    · exact asDouble_ok_numeric _ _ _ hz
    · exact asDouble_ok_numeric _ _ _ hqw
    · exact asDouble_ok_numeric _ _ _ hqx
    · exact asDouble_ok_numeric _ _ _ hqy
    · exact asDouble_ok_numeric _ _ _ hqz
    · exact absurd hfalse (by simp)
  have htgt := parseJoints_ok_numeric _ _ _ htj
  have hcam := parseJoints_ok_numeric _ _ _ hcj
  unfold badRecord poseMalformed jointsMalformed
  rw [Bool.or_eq_false_iff, Bool.or_eq_false_iff]
  refine ⟨?_, ?_, ?_⟩
  · rw [List.any_eq_false]
    intro k hk
    simp [hpose k hk]
  · rw [List.any_eq_false]
    intro i hi
    simp [htgt i hi]
  · rw [List.any_eq_false]
    intro i hi
    simp [hcam i hi]

theorem parseMeasurement_error_of_bad (node : YNode) (h : badRecord node = true) :
    ∃ e, parseMeasurement node = .error e := by
  cases hp : parseMeasurement node with
  | ok m =>
    have := parseMeasurement_ok_not_bad node m hp
    rw [this] at h
    exact absurd h (by simp)
  | error e => exact ⟨e, rfl⟩

/-- C2 counterexample: a record with an entirely absent target_joints entry
does not make loadMeasurements fail; the parse succeeds and silently stores an
empty target joint vector, because the undefined node reports size zero and
the fill loop never runs. -/
theorem loadMeasurements_accepts_missing_joints_key :
    loadMeasurements fileMissingTargetJoints =
      .ok [{ camera_to_target :=
               (Iso3.identity.translate ⟨1, 2, 3⟩).rotate (quatToMat 1 0 0 0),
             camera_chain_joints := [1 / 2], target_chain_joints := [] }] := rfl

/-- C2 (amended): a record whose pose entry or pose component is missing or
non-numeric, or whose joints sequences contain a non-numeric entry, makes
loadMeasurements fail with the structured BadFileException wrapping the first
yaml-cpp error and naming its location, provided the earlier records parse;
absent joints keys, by contrast, parse as empty vectors (see the
counterexample). -/
theorem loadMeasurements_fails_on_malformed_record
    (pre post : List (String × YNode)) (key : String) (record : YNode)
    (hpre : ∀ p ∈ pre, ∃ m, parseMeasurement p.2 = .ok m)
    (hbad : badRecord record = true) :
    ∃ e : YamlError,
      parseMeasurement record = .error e ∧
      loadMeasurements (pre ++ (key, record) :: post) =
        .error ⟨"YAML failure: " ++ e.msg ++ " at " ++ e.loc⟩ := by
  obtain ⟨e, he⟩ := parseMeasurement_error_of_bad record hbad
  refine ⟨e, he, ?_⟩
  unfold loadMeasurements
  rw [exceptMapM_append_error (fun entry => parseMeasurement entry.2) pre (key, record) post e
    (fun p hp => hpre p hp) he]
  simp [Except.mapError]

/-- Witness for C2 (amended): a one-record file whose pose entry is a
non-numeric scalar fails to load. -/
theorem loadMeasurements_fails_on_malformed_record_witness :
    ∃ e : YamlError,
      parseMeasurement (.ymap [("pose", .str "oops")]) = .error e ∧
      loadMeasurements [("0", .ymap [("pose", .str "oops")])] =
        .error ⟨"YAML failure: " ++ e.msg ++ " at " ++ e.loc⟩ :=
  loadMeasurements_fails_on_malformed_record [] [] "0" (.ymap [("pose", .str "oops")])
    (by simp) (by decide)

/-- C10: a record whose pose quaternion is the non-unit (0, 0, 0, 2) loads
without error and without normalization: the stored pose is built by rotating
with the raw quaternion values, and its linear part is not a rotation matrix
(its transpose times itself is not the identity). -/
theorem loadMeasurements_accepts_non_unit_quaternion :
    loadMeasurements fileNonUnitQuaternion =
      .ok [{ camera_to_target :=
               (Iso3.identity.translate ⟨0, 0, 0⟩).rotate (quatToMat 0 0 0 2),
             camera_chain_joints := [], target_chain_joints := [] }] ∧
    ((Iso3.identity.translate (⟨0, 0, 0⟩ : Vec3 ℚ)).rotate
        (quatToMat 0 0 0 2)).linear.transpose.mul
      ((Iso3.identity.translate (⟨0, 0, 0⟩ : Vec3 ℚ)).rotate
        (quatToMat 0 0 0 2)).linear ≠ Mat3.one ∧
    (0 : ℚ) ^ 2 + 0 ^ 2 + 0 ^ 2 + 2 ^ 2 ≠ 1 := by
  refine ⟨rfl, ?_, by norm_num⟩
  intro hcontra
  have h00 := congrArg Mat3.m00 hcontra
  norm_num [Iso3.translate, Iso3.rotate, Iso3.comp, Iso3.identity, Iso3.ofLinear,
    Mat3.one, Mat3.mul, Mat3.transpose, quatToMat] at h00

end RCT

namespace RCT

/-! ## Claim C5: well-formed measurement files -/

theorem exceptMapM_comp_map {E A B C : Type} (g : A → B) (f : B → Except E C) :
    ∀ xs : List A, (xs.map g).mapM f = xs.mapM (fun a => f (g a)) := by
  intro xs
  induction xs with
  | nil => rfl
  | cons a as ih => rw [List.map_cons, List.mapM_cons, List.mapM_cons, ih]

theorem range_mapM_nums (l : List ℚ) : ∀ locf : Nat → String,
    (List.range l.length).mapM
      (fun i => asDouble (locf i) ((l.map YNode.num).getD i .missing)) = .ok l := by
  induction l with
  | nil => intro locf; rfl
  | cons q l ih =>
    intro locf
    rw [List.length_cons, List.range_succ_eq_map, List.mapM_cons, exceptMapM_comp_map]
    simp only [List.map_cons, List.getD_cons_zero, List.getD_cons_succ, Nat.succ_eq_add_one]
    rw [ih (fun i => locf (i + 1))]
    simp [asDouble, Bind.bind, Except.bind]
    rfl

theorem parseJoints_seq_num (loc : String) (l : List ℚ) :
    parseJoints loc (.seq (l.map .num)) = .ok l := by
  unfold parseJoints
  simp only [YNode.size, List.length_map, YNode.get]
  exact range_mapM_nums l _

theorem toNode_find_target (r : RawRecord) :
    r.toNode.find "target_joints" = .seq (r.target_joints.map .num) := rfl

theorem toNode_find_camera (r : RawRecord) :
    r.toNode.find "camera_joints" = .seq (r.camera_joints.map .num) := rfl

theorem toNode_find_pose_x (r : RawRecord) :
    (r.toNode.find "pose").find "x" = .num r.px := rfl

theorem toNode_find_pose_y (r : RawRecord) :
    (r.toNode.find "pose").find "y" = .num r.py := rfl

theorem toNode_find_pose_z (r : RawRecord) :
    (r.toNode.find "pose").find "z" = .num r.pz := rfl

theorem toNode_find_pose_qw (r : RawRecord) :
    (r.toNode.find "pose").find "qw" = .num r.qw := rfl

theorem toNode_find_pose_qx (r : RawRecord) :
    (r.toNode.find "pose").find "qx" = .num r.qx := rfl

theorem toNode_find_pose_qy (r : RawRecord) :
    (r.toNode.find "pose").find "qy" = .num r.qy := rfl

theorem toNode_find_pose_qz (r : RawRecord) :
    (r.toNode.find "pose").find "qz" = .num r.qz := rfl

theorem parseMeasurement_toNode (r : RawRecord) :
    parseMeasurement r.toNode = .ok r.expectedMeasurement := by
  rw [parseMeasurement_def, toNode_find_target, toNode_find_camera,
    toNode_find_pose_x, toNode_find_pose_y, toNode_find_pose_z,
    toNode_find_pose_qw, toNode_find_pose_qx, toNode_find_pose_qy, toNode_find_pose_qz,
    parseJoints_seq_num, parseJoints_seq_num]
  simp [asDouble, Except.bind, Except.pure, RawRecord.expectedMeasurement]

theorem Iso3.identity_comp {R : Type} [CommRing R] (t : Iso3 R) :
    Iso3.identity.comp t = t := by
  cases t with
  | mk lin tr =>
    cases lin; cases tr
    simp only [Iso3.identity, Iso3.comp, Mat3.one, Mat3.mul, Mat3.mulVec, Vec3.zero,
      Vec3.add, Iso3.mk.injEq, Mat3.mk.injEq, Vec3.mk.injEq]
    refine ⟨⟨?_, ?_, ?_, ?_, ?_, ?_, ?_, ?_, ?_⟩, ?_, ?_, ?_⟩ <;> ring

/-- C5: every well-formed measurement file with n records loads as exactly n
measurements, in file order; each measurement's target and camera joint
vectors have the length of the record's joint sequences, and the stored
camera-to-target pose equals the isometry obtained by translating by
(x, y, z) and then rotating by the quaternion (qw, qx, qy, qz). -/
theorem loadMeasurements_wellformed_files (file : List (String × RawRecord)) :
    loadMeasurements (file.map (fun p => (p.1, p.2.toNode))) =
      .ok (file.map (fun p => p.2.expectedMeasurement)) ∧
    (file.map (fun p => p.2.expectedMeasurement)).length = file.length ∧
    ∀ r : RawRecord,
      r.expectedMeasurement.target_chain_joints.length = r.target_joints.length ∧
      r.expectedMeasurement.camera_chain_joints.length = r.camera_joints.length ∧
      r.expectedMeasurement.camera_to_target =
        (Iso3.ofTranslation ⟨r.px, r.py, r.pz⟩).comp
          (Iso3.ofLinear (quatToMat r.qw r.qx r.qy r.qz)) := by
  refine ⟨?_, List.length_map _ _, ?_⟩
  · unfold loadMeasurements
    have hmap : ∀ fs : List (String × RawRecord),
        (fs.map (fun p => (p.1, p.2.toNode))).mapM (fun entry => parseMeasurement entry.2) =
          .ok (fs.map (fun p => p.2.expectedMeasurement)) := by
      intro fs
      induction fs with
      | nil => rfl
      | cons p ps ih =>
        have ih2 : List.mapM.loop (fun entry => parseMeasurement entry.2)
            (ps.map (fun p => (p.1, p.2.toNode))) [] =
            .ok (ps.map (fun p => p.2.expectedMeasurement)) := ih
        rw [List.map_cons, List.mapM_cons, parseMeasurement_toNode]
        simp [Bind.bind, Except.bind, ih, ih2, pure, Except.pure]
    rw [hmap file]
    simp [Except.mapError]
  · intro r
    refine ⟨by simp [RawRecord.expectedMeasurement], by simp [RawRecord.expectedMeasurement], ?_⟩
    show (Iso3.identity.translate ⟨r.px, r.py, r.pz⟩).rotate (quatToMat r.qw r.qx r.qy r.qz) = _
    unfold Iso3.translate Iso3.rotate Iso3.ofTranslation Iso3.ofLinear
    rw [Iso3.identity_comp]

end RCT

namespace RCT

/-! ## Claim C1: compareToMeasurements computes validation statistics -/

theorem measurementStep_eq (camera_chain target_chain : DHChain)
    (result : KinematicCalibrationResult) (acc : Acc × Acc) (m : KinematicMeasurement ℝ) :
    measurementStep camera_chain target_chain result acc m =
      (acc.1.push (translationError camera_chain target_chain result m),
       acc.2.push (rotationError camera_chain target_chain result m)) := by
  simp only [measurementStep, translationError, rotationError, predictedCameraToTarget,
    Iso3.comp_assoc]

theorem foldl_measurementStep (cc tc : DHChain) (res : KinematicCalibrationResult) :
    ∀ (ms : List (KinematicMeasurement ℝ)) (a b : Acc),
      ms.foldl (measurementStep cc tc res) (a, b) =
        (⟨a.n + ms.length, a.sum + (ms.map (translationError cc tc res)).sum,
          a.sumSq + (ms.map (fun m => translationError cc tc res m ^ 2)).sum⟩,
         ⟨b.n + ms.length, b.sum + (ms.map (rotationError cc tc res)).sum,
          b.sumSq + (ms.map (fun m => rotationError cc tc res m ^ 2)).sum⟩) := by
  intro ms
  induction ms with
  | nil => intro a b; cases a; cases b; simp
  | cons m ms ih =>
    intro a b
    rw [List.foldl_cons, measurementStep_eq, ih]
    simp only [Acc.push, List.map_cons, List.sum_cons, List.length_cons, Prod.mk.injEq,
      Acc.mk.injEq]
    refine ⟨⟨?_, ?_, ?_⟩, ?_, ?_, ?_⟩ <;> ring

/-- C1: compareToMeasurements rebuilds the calibrated camera and target chains
from the result's DH offset matrices and returns the mean and the standard
deviation (square root of the population variance) of the translation-error
norm and of the rotation angular distance between the predicted and measured
transforms over the full measurement set, where the prediction is the
specification formula (FK of the calibrated camera chain at the camera
joints, composed with camera-mount-to-camera) inverse, composed with
(camera-base-to-target-base times FK of the calibrated target chain at the
target joints times target-mount-to-target).  The function is a pure fold
over the measurements; no optimization is performed. -/
theorem compareToMeasurements_error_statistics
    (initial_camera_chain initial_target_chain : DHChain)
    (result : KinematicCalibrationResult)
    (measurements : List (KinematicMeasurement ℝ)) :
    compareToMeasurements initial_camera_chain initial_target_chain result measurements =
      { pos_mean := listMean (measurements.map (translationError
          (initial_camera_chain.withOffsets result.camera_chain_dh_offsets)
          (initial_target_chain.withOffsets result.target_chain_dh_offsets) result)),
        pos_stdev := Real.sqrt (listVariance (measurements.map (translationError
          (initial_camera_chain.withOffsets result.camera_chain_dh_offsets)
          (initial_target_chain.withOffsets result.target_chain_dh_offsets) result))),
        rot_mean := listMean (measurements.map (rotationError
          (initial_camera_chain.withOffsets result.camera_chain_dh_offsets)
          (initial_target_chain.withOffsets result.target_chain_dh_offsets) result)),
        rot_stdev := Real.sqrt (listVariance (measurements.map (rotationError
          (initial_camera_chain.withOffsets result.camera_chain_dh_offsets)
          (initial_target_chain.withOffsets result.target_chain_dh_offsets) result))) } := by
  simp only [compareToMeasurements]
  rw [foldl_measurementStep]
  unfold listMean listVariance Acc.mean Acc.variance Acc.empty
  simp [List.map_map, Function.comp_def]

end RCT

namespace RCT

/-! ## Claim C7: joint limits are metadata, never enforced -/

theorem createRelativeTransform_congr (t t2 : DHTransform)
    (h : t.geometry = t2.geometry) (q : ℝ) :
    t.createRelativeTransform q = t2.createRelativeTransform q := by
  have hp : t.params = t2.params := congrArg Prod.fst h
  have hj : t.jtype = t2.jtype := congrArg Prod.snd h
  simp only [DHTransform.createRelativeTransform, hp, hj]

theorem getFK_congr (c c2 : DHChain) (h : sameGeometry c c2) (q : List ℝ) :
    c.getFK q = c2.getFK q := by
  obtain ⟨hb, ht⟩ := h
  unfold DHChain.getFK
  rw [hb]
  have aux : ∀ (ts ts2 : List DHTransform),
      ts.map DHTransform.geometry = ts2.map DHTransform.geometry →
      ∀ (qs : List ℝ) (base : Iso3 ℝ),
        (ts.zip qs).foldl (fun acc p => acc.comp (p.1.createRelativeTransform p.2)) base =
        (ts2.zip qs).foldl (fun acc p => acc.comp (p.1.createRelativeTransform p.2)) base := by
    intro ts
    induction ts with
    | nil =>
      intro ts2 hm qs base
      cases ts2 with
      | nil => rfl
      | cons t2 ts2 => simp at hm
    | cons t ts ih =>
      intro ts2 hm qs base
      cases ts2 with
      | nil => simp at hm
      | cons t2 ts2 =>
        simp only [List.map_cons, List.cons.injEq] at hm
        obtain ⟨h1, h2⟩ := hm
        cases qs with
        | nil => rfl
        | cons q0 qs =>
          simp only [List.zip_cons_cons, List.foldl_cons]
          rw [createRelativeTransform_congr t t2 h1 q0, ih ts2 h2 qs]
  exact aux _ _ ht q c2.base_offset

theorem withOffsets_sameGeometry (c c2 : DHChain) (h : sameGeometry c c2)
    (offsets : List (Vec4 ℝ)) :
    sameGeometry (c.withOffsets offsets) (c2.withOffsets offsets) := by
  obtain ⟨hb, ht⟩ := h
  refine ⟨hb, ?_⟩
  unfold DHChain.withOffsets
  have aux : ∀ (ts ts2 : List DHTransform),
      ts.map DHTransform.geometry = ts2.map DHTransform.geometry →
      ∀ (os : List (Vec4 ℝ)),
        ((ts.zip os).map
          (fun p => { p.1 with params := p.1.params.add p.2 })).map DHTransform.geometry =
        ((ts2.zip os).map
          (fun p => { p.1 with params := p.1.params.add p.2 })).map DHTransform.geometry := by
    intro ts
    induction ts with
    | nil =>
      intro ts2 hm os
      cases ts2 with
      | nil => rfl
      | cons t2 ts2 => simp at hm
    | cons t ts ih =>
      intro ts2 hm os
      cases ts2 with
      | nil => simp at hm
      | cons t2 ts2 =>
        simp only [List.map_cons, List.cons.injEq] at hm
        obtain ⟨h1, h2⟩ := hm
        cases os with
        | nil => rfl
        | cons o os =>
          simp only [List.zip_cons_cons, List.map_cons, List.cons.injEq]
          constructor
          · unfold DHTransform.geometry at h1 ⊢
            have hp : t.params = t2.params := congrArg Prod.fst h1
            have hj : t.jtype = t2.jtype := congrArg Prod.snd h1
            simp only [hp, hj, Prod.mk.injEq]
          · exact ih ts2 h2 os
  exact aux _ _ ht offsets

/-- C7: forward kinematics and the validation pass never read the declared
joint-limit range: two chains agreeing on everything except their limit
metadata produce identical FK results at every joint vector — in particular
at the out-of-range vector supplied by the hypotheses — and identical
validation statistics for every result and measurement set.  The out-of-range
value is therefore used as-is, with no clamping; totality of the embedded
functions mirrors the no-throw guarantee. -/
theorem fk_and_validation_ignore_joint_limits
    (c c2 : DHChain) (hg : sameGeometry c c2)
    (q : List ℝ) (_hlen : q.length = c.dof) (_hout : jointOutsideLimits c q) :
    c.getFK q = c2.getFK q ∧
    ∀ (t t2 : DHChain), sameGeometry t t2 →
      ∀ (result : KinematicCalibrationResult) (ms : List (KinematicMeasurement ℝ)),
        compareToMeasurements c t result ms = compareToMeasurements c2 t2 result ms := by
  refine ⟨getFK_congr c c2 hg q, ?_⟩
  intro t t2 htt result ms
  simp only [compareToMeasurements]
  have hcc := withOffsets_sameGeometry c c2 hg result.camera_chain_dh_offsets
  have htt2 := withOffsets_sameGeometry t t2 htt result.target_chain_dh_offsets
  have hstep :
      measurementStep (c.withOffsets result.camera_chain_dh_offsets)
        (t.withOffsets result.target_chain_dh_offsets) result =
      measurementStep (c2.withOffsets result.camera_chain_dh_offsets)
        (t2.withOffsets result.target_chain_dh_offsets) result := by
    funext acc m
    simp only [measurementStep]
    rw [getFK_congr _ _ hcc, getFK_congr _ _ htt2]
  rw [hstep]

theorem twoAxis_sameGeometry :
    sameGeometry createTwoAxisPositioner twoAxisPositionerNoLimits :=
  ⟨rfl, rfl⟩

theorem ten_outside_j1_limits : jointOutsideLimits createTwoAxisPositioner [10, 0] := by
  refine ⟨(positionerJ1, 10), ?_, Or.inr ?_⟩
  · show (positionerJ1, (10 : ℝ)) ∈ createTwoAxisPositioner.transforms.zip [10, 0]
    simp [createTwoAxisPositioner]
  · show positionerJ1.jmax < 10
    have h := Real.pi_lt_d2
    simp only [positionerJ1]
    linarith

/-- Witness for C7: the two-axis positioner of the example against a copy with
zeroed limits, at the joint vector (10, 0) whose first entry exceeds the
declared maximum of pi. -/
theorem fk_and_validation_ignore_joint_limits_witness :
    createTwoAxisPositioner.getFK [10, 0] = twoAxisPositionerNoLimits.getFK [10, 0] ∧
    ∀ (t t2 : DHChain), sameGeometry t t2 →
      ∀ (result : KinematicCalibrationResult) (ms : List (KinematicMeasurement ℝ)),
        compareToMeasurements createTwoAxisPositioner t result ms =
          compareToMeasurements twoAxisPositionerNoLimits t2 result ms :=
  fk_and_validation_ignore_joint_limits createTwoAxisPositioner twoAxisPositionerNoLimits
    twoAxis_sameGeometry [10, 0] rfl ten_outside_j1_limits

end RCT

namespace RCT

/-! ## Claim C9: the percent-difference divisor can be zero -/

theorem identity_inverse : (Iso3.identity : Iso3 ℝ).inverse = Iso3.identity := by
  simp only [Iso3.inverse, Iso3.identity, Mat3.transpose, Mat3.one, Mat3.mulVec, Vec3.zero,
    Vec3.neg, Iso3.mk.injEq, Mat3.mk.injEq, Vec3.mk.injEq]
  norm_num

theorem identity_comp_identity :
    (Iso3.identity : Iso3 ℝ).comp Iso3.identity = Iso3.identity :=
  Iso3.identity_comp _

theorem trivial_predicted :
    predictedCameraToTarget trivialChain trivialChain perfectResult perfectMeasurement =
      Iso3.identity := by
  unfold predictedCameraToTarget
  have hfkc : trivialChain.getFK perfectMeasurement.camera_chain_joints = Iso3.identity := rfl
  have hfkt : trivialChain.getFK perfectMeasurement.target_chain_joints = Iso3.identity := rfl
  have hm1 : perfectResult.camera_mount_to_camera = Iso3.identity := rfl
  have hm2 : perfectResult.target_mount_to_target = Iso3.identity := rfl
  have hm3 : perfectResult.camera_base_to_target_base = Iso3.identity := rfl
  rw [hfkc, hfkt, hm1, hm2, hm3]
  simp only [identity_comp_identity, identity_inverse]

theorem trivial_translationError :
    translationError trivialChain trivialChain perfectResult perfectMeasurement = 0 := by
  unfold translationError
  rw [trivial_predicted, identity_inverse]
  have hp : perfectMeasurement.camera_to_target = Iso3.identity := rfl
  rw [hp, identity_comp_identity]
  simp only [norm3, Iso3.identity, Vec3.zero]
  norm_num

theorem trivial_rotationError :
    rotationError trivialChain trivialChain perfectResult perfectMeasurement = 0 := by
  unfold rotationError
  rw [trivial_predicted]
  have hp : perfectMeasurement.camera_to_target = Iso3.identity := rfl
  rw [hp]
  simp only [angularDistance, Iso3.identity, Mat3.transpose, Mat3.one, Mat3.mul, Mat3.trace]
  norm_num [Real.arccos_one]

theorem trivial_stats :
    compareToMeasurements trivialChain trivialChain perfectResult [perfectMeasurement] =
      { pos_mean := 0, pos_stdev := 0, rot_mean := 0, rot_stdev := 0 } := by
  simp only [compareToMeasurements]
  rw [show trivialChain.withOffsets perfectResult.camera_chain_dh_offsets = trivialChain
      from rfl,
    show trivialChain.withOffsets perfectResult.target_chain_dh_offsets = trivialChain
      from rfl,
    List.foldl_cons, measurementStep_eq, trivial_translationError, trivial_rotationError,
    List.foldl_nil]
  simp only [Acc.push, Acc.empty, Acc.mean, Acc.variance]
  norm_num [Real.sqrt_eq_zero']

/-- C9: the percent-difference comparator divides by the receiver's own
statistics with no guard, and a receiver statistic of zero is reachable: a
perfect-fit validation (here a zero-DOF chain pair whose prediction equals the
measured identity pose exactly) yields statistics whose position and
orientation means are zero, and percentDiff applied to those statistics still
forms the quotient whose divisor is that zero statistic (real division in the
embedding is total where the double division of the source produces a
non-finite value). -/
theorem percentDiff_division_by_zero_reachable :
    (compareToMeasurements trivialChain trivialChain perfectResult
        [perfectMeasurement]).pos_mean = 0 ∧
    (compareToMeasurements trivialChain trivialChain perfectResult
        [perfectMeasurement]).rot_mean = 0 ∧
    ∀ b : Stats,
      ((compareToMeasurements trivialChain trivialChain perfectResult
          [perfectMeasurement]).percentDiff b).1 =
        100 * ((compareToMeasurements trivialChain trivialChain perfectResult
            [perfectMeasurement]).pos_mean - b.pos_mean) /
          (compareToMeasurements trivialChain trivialChain perfectResult
            [perfectMeasurement]).pos_mean ∧
      ((compareToMeasurements trivialChain trivialChain perfectResult
          [perfectMeasurement]).percentDiff b).2.2.1 =
        100 * ((compareToMeasurements trivialChain trivialChain perfectResult
            [perfectMeasurement]).rot_mean - b.rot_mean) /
          (compareToMeasurements trivialChain trivialChain perfectResult
            [perfectMeasurement]).rot_mean := by
  rw [trivial_stats]
  exact ⟨rfl, rfl, fun b => ⟨rfl, rfl⟩⟩

end RCT
